import Mathlib

/-!
# Verification of the tool-dispatch core of FundStockAnalysts

A shallow embedding of `planning/tool_executor.py`: the identifier
extractors, the batch analysis tools, the registry/dispatcher, and the
metadata reflector, together with theorems settling the specification
claims about them.

Conventions of the embedding:

* Python strings are `String`; Python's `str` comparison (used by
  `sorted`) is modelled by the code-point lexicographic order
  `pyStrLe` / `pyStrLt` below.
* `re.findall(r"\b\d{6}\b", s)` is modelled by `re_findall_code`, a
  left-to-right scan.  Python's `\d` matches any Unicode decimal digit
  (category Nd), not only ASCII; `reIsDigit` models it on ASCII digits
  plus the fullwidth (U+FF10..U+FF19) and Arabic-Indic (U+0660..U+0669)
  decimal-digit ranges, which suffice for the inputs considered here.
  Likewise `reIsWord` models `\w` on the character classes exercised by
  this development.
* Fallible Python code returns `Except PyExn`; the observable side
  effects of one tool run (progress-callback invocations and calls to
  the external per-identifier analysis routine) are recorded in an
  explicit event trace.
* Python floats produced by `i / total` are modelled as exact rationals.
-/

namespace ToolExecutor

/-- Models Python `re`'s `\d` (any Unicode decimal digit, category Nd)
on ASCII digits plus the fullwidth and Arabic-Indic digit ranges. -/
def reIsDigit (c : Char) : Bool :=
  c.isDigit || (0xFF10 ≤ c.toNat && c.toNat ≤ 0xFF19) ||
    (0x660 ≤ c.toNat && c.toNat ≤ 0x669)

/-- Models Python `re`'s `\w` (Unicode word character) on the classes
exercised here: ASCII alphanumerics, underscore, the decimal digits of
`reIsDigit`, and CJK unified ideographs. -/
def reIsWord (c : Char) : Bool :=
  c.isAlphanum || c == '_' || reIsDigit c ||
    (0x4E00 ≤ c.toNat && c.toNat ≤ 0x9FFF)

/-- Does `\d{6}\b` match at the head of `l`?  (Six decimal digits whose
following character, if any, is not a word character.) -/
def match6 (l : List Char) : Bool :=
  decide (6 ≤ l.length) && (l.take 6).all reIsDigit &&
    (match l.drop 6 with
     | [] => true
     | d :: _ => !reIsWord d)

/-- Left-to-right scan for non-overlapping matches of `\b\d{6}\b`, as
Python's regex engine performs it: at each position, if the preceding
character is not a word character and `\d{6}\b` matches, emit the match
and resume after it; otherwise advance one character.  `fuel` bounds the
recursion (any value `≥ l.length` gives the scan's result). -/
def findallAux : Nat → Bool → List Char → List String
  | 0, _, _ => []
  | _ + 1, _, [] => []
  | fuel + 1, prevWord, c :: rest =>
    if prevWord = false ∧ match6 (c :: rest) = true then
      String.mk ((c :: rest).take 6) ::
        findallAux fuel true ((c :: rest).drop 6)
    else
      findallAux fuel (reIsWord c) rest

/-- Models `re.findall(r"\b\d{6}\b", s)` from
`tool_executor.py` lines 131 and 150. -/
def re_findall_code (s : String) : List String :=
  findallAux s.data.length false s.data

/-- Python's `<=` on lists of characters: code-point lexicographic
order.  Models the order `sorted` uses on `str`. -/
def charListLe : List Char → List Char → Bool
  | [], _ => true
  | _ :: _, [] => false
  | a :: as, b :: bs =>
    if a.toNat < b.toNat then true
    else if b.toNat < a.toNat then false
    else charListLe as bs

/-- Python's `<` on lists of characters (strict code-point
lexicographic order). -/
def charListLt : List Char → List Char → Bool
  | [], [] => false
  | [], _ :: _ => true
  | _ :: _, [] => false
  | a :: as, b :: bs =>
    if a.toNat < b.toNat then true
    else if b.toNat < a.toNat then false
    else charListLt as bs

/-- Python's `str` comparison `a <= b`. -/
def pyStrLe (a b : String) : Bool := charListLe a.data b.data

/-- Python's `str` comparison `a < b`. -/
def pyStrLt (a b : String) : Bool := charListLt a.data b.data

/-- Models Python's `sorted` on a list of strings (ascending,
lexicographic by code point). -/
def pySorted (l : List String) : List String :=
  List.insertionSort (fun a b => pyStrLe a b = true) l

/-- Models Python's `sep.join(parts)`. -/
def pyJoin (sep : String) : List String → String
  | [] => ""
  | [x] => x
  | x :: y :: rest => x ++ sep ++ pyJoin sep (y :: rest)

/-- A Python value appearing under a symbols key of the `parameters`
dict: either a `list` (its elements already rendered by `str`) or any
other value (rendered by `str` to a single string). -/
inductive ParamVal where
  | list (xs : List String)
  | single (s : String)
deriving DecidableEq

/-- The `parameters` argument: either not a `dict` at all, or a `dict`
modelled as an association list from string keys to values. -/
inductive Params where
  | notDict
  | dict (kvs : List (String × ParamVal))
deriving DecidableEq

/-- `parameters[k]` when `isinstance(parameters, dict) and k in
parameters`, and `none` otherwise. -/
def paramsGet (p : Params) (k : String) : Option ParamVal :=
  match p with
  | .notDict => none
  | .dict kvs => (kvs.find? (fun q => q.1 == k)).map (fun q => q.2)

/-- The candidate strings contributed by a parameter value: a list is
spread element-wise (`candidates.extend`), anything else contributes its
single `str` rendering (`candidates.append`). -/
def paramCandidates : ParamVal → List String
  | .list xs => xs
  | .single s => [s]

/-- `_extract_stock_symbols` from `tool_executor.py` lines 115-132:
candidates come from `parameters["stock_symbols"]` when present,
otherwise from the whole `step_content` (when non-empty); the joined
candidates are scanned for `\b\d{6}\b`, deduplicated and sorted. -/
def _extract_stock_symbols (parameters : Params) (step_content : String) :
    List String :=
  let candidates :=
    match paramsGet parameters "stock_symbols" with
    | some v => paramCandidates v
    | none => []
  let candidates :=
    if candidates = [] ∧ step_content ≠ "" then [step_content]
    else candidates
  let valid_codes :=
    (re_findall_code (pyJoin "," candidates)).dedup
  pySorted valid_codes

/-- `_extract_fund_symbols` from `tool_executor.py` lines 134-151:
identical to `_extract_stock_symbols` except that the parameter key is
`"fund_symbols"`. -/
def _extract_fund_symbols (parameters : Params) (step_content : String) :
    List String :=
  let candidates :=
    match paramsGet parameters "fund_symbols" with
    | some v => paramCandidates v
    | none => []
  let candidates :=
    if candidates = [] ∧ step_content ≠ "" then [step_content]
    else candidates
  let valid_codes :=
    (re_findall_code (pyJoin "," candidates)).dedup
  pySorted valid_codes

/-- The message of a Python exception, as rendered by `str(e)`. -/
structure PyExn where
  msg : String
deriving DecidableEq

/-- The four optional report sections under `analysis_result['state']`
(lines 205-214); a key absent from the `state` dict is `none`. -/
structure StockState where
  market_report : Option String
  fundamentals_report : Option String
  sentiment_report : Option String
  news_report : Option String
deriving DecidableEq

/-- The structured result returned by the external `run_stock_analysis`
collaborator: an optional `state` dict of report sections, and
`decision_reasoning` which is `some` exactly when `'decision' in
analysis_result and 'reasoning' in analysis_result['decision']`
(lines 205 and 218), carrying that value's string rendering. -/
structure StockResult where
  state : Option StockState
  decision_reasoning : Option String
deriving DecidableEq

/-- Lines 204-214: the `raw_reports` list — for each of the four report
keys, in the fixed order of `report_types`, a titled section is appended
when the key is present in `state`. -/
def stockRawReports (r : StockResult) : List String :=
  match r.state with
  | none => []
  | some st =>
    (match st.market_report with
     | some v => ["#### Market Report\n" ++ v]
     | none => []) ++
    (match st.fundamentals_report with
     | some v => ["#### Fundamentals Report\n" ++ v]
     | none => []) ++
    (match st.sentiment_report with
     | some v => ["#### Sentiment Report\n" ++ v]
     | none => []) ++
    (match st.news_report with
     | some v => ["#### News Report\n" ++ v]
     | none => [])

/-- Lines 217-219: `decision_reasoning`, the headed reasoning text when
present and the empty string otherwise. -/
def stockDecisionReasoning (r : StockResult) : String :=
  match r.decision_reasoning with
  | some v => "#### 核心决策结论\n" ++ v
  | none => ""

/-- Line 222: `full_raw_report = "\n\n".join(raw_reports +
[decision_reasoning])` — note the reasoning slot is appended even when
empty. -/
def stockFullRawReport (r : StockResult) : String :=
  pyJoin "\n\n" (stockRawReports r ++ [stockDecisionReasoning r])

/-- Lines 188-224: the fragment appended to `all_analysis` for one stock
code — a failure fragment when `run_stock_analysis` raises, otherwise
the headed full report (or the no-result placeholder when it is empty). -/
def stockFragment (analyze : String → Except PyExn StockResult)
    (code : String) : String :=
  match analyze code with
  | .error e => "### 个股分析: " ++ code ++ "\n分析失败：" ++ e.msg
  | .ok r =>
    "### 个股分析: " ++ code ++ "\n" ++
      (if stockFullRawReport r = "" then "无分析结果"
       else stockFullRawReport r)

/-- One observable side effect of a batch run: a progress-callback
invocation `callback(message, fraction)`, or a call to the external
per-identifier analysis routine. -/
inductive Event where
  | progress (message : String) (fraction : ℚ)
  | analyzeCall (code : String)
deriving DecidableEq

/-- The progress message of line 186:
`f"正在分析股票 {code}（{i}/{total}）"`. -/
def progressMsgStock (code : String) (i total : Nat) : String :=
  "正在分析股票 " ++ code ++ "（" ++ toString i ++ "/" ++ toString total ++ "）"

/-- The progress message of line 261:
`f"正在分析基金 {code}（{i}/{total}）"`. -/
def progressMsgFund (code : String) (i total : Nat) : String :=
  "正在分析基金 " ++ code ++ "（" ++ toString i ++ "/" ++ toString total ++ "）"

/-- One iteration of the stock loop (lines 182-224) for 1-based index
`i`: the events it emits (a progress notification when a callback is
supplied, then the analysis call) and the fragment it appends. -/
def stockStep (analyze : String → Except PyExn StockResult) (cb : Bool)
    (total i : Nat) (code : String) : List Event × String :=
  ((if cb then
      [Event.progress (progressMsgStock code i total) ((i : ℚ) / (total : ℚ))]
    else []) ++ [Event.analyzeCall code],
   stockFragment analyze code)

/-- Lines 263-272: the fragment appended for one fund code; the external
`run_fund_analysis` returns raw text. -/
def fundFragment (analyze : String → Except PyExn String)
    (code : String) : String :=
  match analyze code with
  | .error e => "### 基金分析: " ++ code ++ "\n分析失败：" ++ e.msg
  | .ok s =>
    "### 基金分析: " ++ code ++ "\n" ++ (if s = "" then "无分析结果" else s)

/-- One iteration of the fund loop (lines 257-272). -/
def fundStep (analyze : String → Except PyExn String) (cb : Bool)
    (total i : Nat) (code : String) : List Event × String :=
  ((if cb then
      [Event.progress (progressMsgFund code i total) ((i : ℚ) / (total : ℚ))]
    else []) ++ [Event.analyzeCall code],
   fundFragment analyze code)

/-- The `for i, code in enumerate(symbols, 1)` loop shared by both
tools: runs `stepF` on each identifier in order with its 1-based index,
concatenating emitted events and collecting fragments. -/
def batchLoop (stepF : Nat → String → List Event × String) :
    Nat → List String → List Event × List String
  | _, [] => ([], [])
  | i, code :: rest =>
    let s := stepF i code
    let t := batchLoop stepF (i + 1) rest
    (s.1 ++ t.1, s.2 :: t.2)

/-- The fixed error string of line 173. -/
def stockNoCodesMsg : String :=
  "错误：未找到有效的A股股票代码（需为6位数字），无法执行分析。"

/-- The fixed error string of line 248. -/
def fundNoCodesMsg : String :=
  "错误：未找到有效的基金代码（需为6位数字），无法执行分析。"

/-- `execute_stock_analysis_tool` (lines 153-226) with the external
`run_stock_analysis` call abstracted as `analyze` and the presence of a
progress callback as `cb`.  Returns the report string together with the
trace of observable events of the run. -/
def execute_stock_analysis_tool (analyze : String → Except PyExn StockResult)
    (parameters : Params) (step_content : String) (cb : Bool) :
    String × List Event :=
  let stock_symbols := _extract_stock_symbols parameters step_content
  if stock_symbols = [] then (stockNoCodesMsg, [])
  else
    let r := batchLoop (stockStep analyze cb stock_symbols.length) 1
      stock_symbols
    (pyJoin "\n\n" r.2, r.1)

/-- `execute_fund_analysis_tool` (lines 228-274) with the external
`run_fund_analysis` call abstracted as `analyze`. -/
def execute_fund_analysis_tool (analyze : String → Except PyExn String)
    (parameters : Params) (step_content : String) (cb : Bool) :
    String × List Event :=
  let fund_symbols := _extract_fund_symbols parameters step_content
  if fund_symbols = [] then (fundNoCodesMsg, [])
  else
    let r := batchLoop (fundStep analyze cb fund_symbols.length) 1
      fund_symbols
    (pyJoin "\n\n" r.2, r.1)

/-- A registered handler as the dispatcher sees it: it takes
`(parameters, step_content, progress_callback)` and either returns a
report string or raises. -/
def Handler : Type :=
  Params → String → Bool → Except PyExn String

/-- `self.tools` (lines 20-25): the ordered registry mapping display
names to handlers. -/
def toolRegistry (stockH fundH : Handler) : List (String × Handler) :=
  [("个股股票分析工具", stockH), ("基金分析工具", fundH)]

/-- `get_available_tools` (lines 27-29): the registry's keys in
registration order. -/
def get_available_tools (stockH fundH : Handler) : List String :=
  (toolRegistry stockH fundH).map (fun t => t.1)

/-- `execute` (lines 93-113): an unregistered name yields the
unknown-tool error string listing the available tools; otherwise the
handler runs under a `try/except` that converts any exception into an
error string carrying the exception's message. -/
def execute (stockH fundH : Handler) (tool_name : String)
    (parameters : Params) (step_content : String) (cb : Bool) : String :=
  match (toolRegistry stockH fundH).lookup tool_name with
  | none =>
    "错误：未知工具 '" ++ tool_name ++ "'，无法执行。可用工具：" ++
      pyJoin ", " (get_available_tools stockH fundH)
  | some h =>
    match h parameters step_content cb with
    | .ok s => s
    | .error e => "执行工具 '" ++ tool_name ++ "' 时发生错误: " ++ e.msg

/-- One per-argument entry of the parsed docstring
(`docstring_parser`'s `parsed_doc.params`): argument name and optional
description text. -/
structure DocParam where
  arg_name : String
  description : Option String
deriving DecidableEq

/-- One declared parameter as reported by `inspect.signature`: its name,
the `__name__` of its annotation when annotated, and its declared
default when one exists.  `α` is the type of Python default values. -/
structure SigParam (α : Type) where
  name : String
  annotationName : Option String
  default : Option α
deriving DecidableEq

/-- A handler as seen by reflection: function name, docstring summary,
parsed per-argument docstring entries, and signature parameters in
declaration order. -/
structure PyFunc (α : Type) where
  name : String
  short_description : Option String
  doc_params : List DocParam
  params : List (SigParam α)
deriving DecidableEq

/-- Python's `x or d` for an optional string `x`: the fallback replaces
both `None` and the empty string. -/
def pyOrElse (s : Option String) (d : String) : String :=
  match s with
  | none => d
  | some v => if v = "" then d else v

/-- Lines 49-53: the loop initialising `param_desc = ""` and, on the
first docstring entry matching the parameter name, replacing it by
`doc_param.description or "无描述"` and breaking. -/
def paramDescOf (doc_params : List DocParam) (param_name : String) :
    String :=
  match doc_params with
  | [] => ""
  | q :: rest =>
    if q.arg_name = param_name then pyOrElse q.description "无描述"
    else paramDescOf rest param_name

/-- One entry of the reflected parameter list (lines 55-60).  The
`default` slot holds either the declared Python default value or the
literal placeholder string `"必填"`. -/
structure ParamMeta (α : Type) where
  name : String
  type : String
  default : α ⊕ String
  description : String
deriving DecidableEq

/-- The dict returned by `get_tool_metadata` (lines 62-66). -/
structure ToolMeta (α : Type) where
  name : String
  description : String
  parameters : List (ParamMeta α)
deriving DecidableEq

/-- `get_tool_metadata` (lines 31-66). -/
def get_tool_metadata {α : Type} (f : PyFunc α) : ToolMeta α :=
  { name := f.name
  , description := pyOrElse f.short_description "无描述"
  , parameters := f.params.map (fun p =>
      { name := p.name
      , type := match p.annotationName with
                | some t => t
                | none => "未指定"
      , default := match p.default with
                   | some v => Sum.inl v
                   | none => Sum.inr "必填"
      , description := paramDescOf f.doc_params p.name }) }

/-- `sub` occurs as a contiguous substring of `s`. -/
def strContains (s sub : String) : Prop :=
  ∃ a b : String, s = a ++ sub ++ b

/-- The shape claim C1 asserts of an extractor's output, stated with
`reIsDigit` (Python's `\d`, Unicode decimal digits) in place of the
claim's ASCII-only digits: every element is exactly six decimal digits,
elements are pairwise distinct, and the list is strictly ascending in
the code-point lexicographic order Python's `sorted` uses. -/
def SixDigitDistinctAscending (l : List String) : Prop :=
  (∀ s ∈ l, s.data.length = 6 ∧ ∀ c ∈ s.data, reIsDigit c = true) ∧
  l.Nodup ∧ l.Pairwise (fun a b => pyStrLt a b = true)

/-- The event trace claim C7 predicts when a progress callback is
supplied: for each identifier in order, one progress notification
carrying the labelled message and the fraction `i/total`, immediately
followed by that identifier's analysis call. -/
def expectedTrace (label : String → Nat → Nat → String) (total : Nat) :
    Nat → List String → List Event
  | _, [] => []
  | i, code :: rest =>
    Event.progress (label code i total) ((i : ℚ) / (total : ℚ)) ::
      Event.analyzeCall code :: expectedTrace label total (i + 1) rest

/-- The fraction arguments of the progress-callback invocations of a
trace, in order. -/
def progressFractions (evs : List Event) : List ℚ :=
  evs.filterMap (fun e =>
    match e with
    | .progress _ q => some q
    | .analyzeCall _ => none)

section OrderLemmas

theorem charListLe_total : ∀ a b : List Char,
    charListLe a b = true ∨ charListLe b a = true
  | [], _ => Or.inl rfl
  | _ :: _, [] => Or.inr rfl
  | a :: as, b :: bs => by
    rcases Nat.lt_trichotomy a.toNat b.toNat with h | h | h
    · exact Or.inl (by simp [charListLe, h])
    · rcases charListLe_total as bs with ih | ih
      · exact Or.inl (by simp [charListLe, h, ih])
      · exact Or.inr (by simp [charListLe, h.symm, ih])
    · exact Or.inr (by simp [charListLe, h])

theorem charListLe_trans : ∀ a b c : List Char,
    charListLe a b = true → charListLe b c = true → charListLe a c = true
  | [], _, _, _, _ => rfl
  | _ :: _, [], _, hab, _ => by simp [charListLe] at hab
  | _ :: _, _ :: _, [], _, hbc => by simp [charListLe] at hbc
  | a :: as, b :: bs, c :: cs, hab, hbc => by
    simp only [charListLe] at hab hbc ⊢
    split at hab
    · split at hbc
      · simp; omega
      · split at hbc
        · exact absurd hbc (by simp)
        · simp; omega
    · split at hab
      · exact absurd hab (by simp)
      · split at hbc
        · simp; omega
        · split at hbc
          · exact absurd hbc (by simp)
          · have h1 : ¬ a.toNat < c.toNat ∨ a.toNat = b.toNat := by omega
            have hac : a.toNat = c.toNat := by omega
            simp only [hac, Nat.lt_irrefl, if_false]
            exact charListLe_trans as bs cs hab hbc

/-- A character is determined by its code point. -/
theorem char_eq_of_toNat_eq {a b : Char} (h : a.toNat = b.toNat) : a = b :=
  Char.ext (UInt32.ext h)

theorem charListLt_of_le_of_ne : ∀ a b : List Char,
    charListLe a b = true → a ≠ b → charListLt a b = true
  | [], [], _, hne => absurd rfl hne
  | [], _ :: _, _, _ => rfl
  | _ :: _, [], hab, _ => by simp [charListLe] at hab
  | a :: as, b :: bs, hab, hne => by
    simp only [charListLe] at hab
    simp only [charListLt]
    split at hab
    · simp_all
    · split at hab
      · exact absurd hab (by simp)
      · have hab' : a.toNat = b.toNat := by omega
        have hhd : a = b := char_eq_of_toNat_eq hab'
        have htl : as ≠ bs := fun h => hne (by rw [hhd, h])
        simp only [if_neg (by omega : ¬ a.toNat < b.toNat),
          if_neg (by omega : ¬ b.toNat < a.toNat)]
        exact charListLt_of_le_of_ne as bs hab htl

theorem pyStrLt_of_le_of_ne {a b : String} (hle : pyStrLe a b = true)
    (hne : a ≠ b) : pyStrLt a b = true :=
  charListLt_of_le_of_ne a.data b.data hle
    (fun h => hne (congrArg String.mk h))

theorem pySorted_sorted (l : List String) :
    (pySorted l).Pairwise (fun a b => pyStrLe a b = true) := by
  haveI : IsTotal String (fun a b => pyStrLe a b = true) :=
    ⟨fun a b => charListLe_total a.data b.data⟩
  haveI : IsTrans String (fun a b => pyStrLe a b = true) :=
    ⟨fun a b c => charListLe_trans a.data b.data c.data⟩
  exact List.sorted_insertionSort _ l

theorem pySorted_perm (l : List String) : (pySorted l).Perm l :=
  List.perm_insertionSort _ l

theorem pySorted_nodup {l : List String} (h : l.Nodup) :
    (pySorted l).Nodup :=
  (pySorted_perm l).nodup_iff.mpr h

theorem pySorted_strict {l : List String} (h : l.Nodup) :
    (pySorted l).Pairwise (fun a b => pyStrLt a b = true) := by
  have hs := pySorted_sorted l
  have hn : (pySorted l).Pairwise (fun a b => a ≠ b) := pySorted_nodup h
  exact (hs.and hn).imp (fun hab => pyStrLt_of_le_of_ne hab.1 hab.2)

end OrderLemmas

section SupportLemmas

theorem findallAux_mem : ∀ (fuel : Nat) (b : Bool) (l : List Char)
    (s : String), s ∈ findallAux fuel b l →
    s.data.length = 6 ∧ ∀ c ∈ s.data, reIsDigit c = true
  | 0, _, _, _, h => by simp [findallAux] at h
  | _ + 1, _, [], _, h => by simp [findallAux] at h
  | fuel + 1, prevWord, c :: rest, s, h => by
    simp only [findallAux] at h
    split at h
    · rename_i hg
      rcases List.mem_cons.mp h with heq | hmem
      · subst heq
        have hg2 := hg.2
        rw [match6, Bool.and_eq_true, Bool.and_eq_true] at hg2
        obtain ⟨⟨hlen, hall⟩, _⟩ := hg2
        have hlen' : 6 ≤ (c :: rest).length := of_decide_eq_true hlen
        constructor
        · show ((c :: rest).take 6).length = 6
          rw [List.length_take]
          omega
        · intro x hx
          exact List.all_eq_true.mp hall x hx
      · exact findallAux_mem fuel true _ s hmem
    · exact findallAux_mem fuel (reIsWord c) rest s h


theorem pipeline_sixDigit (x : String) :
    SixDigitDistinctAscending (pySorted ((re_findall_code x).dedup)) := by
  refine ⟨?_, pySorted_nodup (List.nodup_dedup _),
    pySorted_strict (List.nodup_dedup _)⟩
  intro s hs
  have h1 : s ∈ (re_findall_code x).dedup := (pySorted_perm _).mem_iff.mp hs
  exact findallAux_mem _ _ _ s (List.mem_dedup.mp h1)

theorem eq_empty_of_data_nil {s : String} (h : s.data = []) : s = "" :=
  congrArg String.mk h

theorem append3_ne_empty (a sep y : String) (hsep : sep ≠ "") :
    a ++ sep ++ y ≠ "" := by
  intro h
  apply hsep
  apply eq_empty_of_data_nil
  have h2 : a.data ++ sep.data ++ y.data = [] := by
    have h3 := congrArg String.data h
    rwa [String.data_append, String.data_append] at h3
  rcases List.append_eq_nil.mp h2 with ⟨h4, _⟩
  exact (List.append_eq_nil.mp h4).2

theorem append_left_ne_empty (a y : String) (ha : a ≠ "") :
    a ++ y ≠ "" := by
  intro h
  apply ha
  apply eq_empty_of_data_nil
  have h2 : a.data ++ y.data = [] := by
    have h3 := congrArg String.data h
    rwa [String.data_append] at h3
  exact (List.append_eq_nil.mp h2).1

theorem pyJoin_concat (sep x : String) :
    ∀ l : List String, l ≠ [] →
      pyJoin sep (l ++ [x]) = pyJoin sep l ++ sep ++ x
  | [], h => absurd rfl h
  | [a], _ => rfl
  | a :: b :: rest, _ => by
    have ih := pyJoin_concat sep x (b :: rest) (by simp)
    show a ++ sep ++ pyJoin sep ((b :: rest) ++ [x])
      = a ++ sep ++ pyJoin sep (b :: rest) ++ sep ++ x
    rw [ih]
    simp [String.append_assoc]

theorem pyJoin_ne_empty (sep x : String) (hsep : sep ≠ "") :
    ∀ l : List String, l ≠ [] → pyJoin sep (l ++ [x]) ≠ ""
  | [], h => absurd rfl h
  | [a], _ => by
    show a ++ sep ++ x ≠ ""
    exact append3_ne_empty a sep x hsep
  | a :: b :: rest, _ => by
    show a ++ sep ++ pyJoin sep ((b :: rest) ++ [x]) ≠ ""
    exact append3_ne_empty _ _ _ hsep

theorem batchLoop_fragments (stepF : Nat → String → List Event × String)
    (frag : String → String)
    (hfrag : ∀ i code, (stepF i code).2 = frag code) :
    ∀ (i : Nat) (syms : List String),
      (batchLoop stepF i syms).2 = syms.map frag
  | _, [] => rfl
  | i, code :: rest => by
    simp only [batchLoop, List.map]
    rw [hfrag, batchLoop_fragments stepF frag hfrag (i + 1) rest]


theorem batchLoop_stock_events
    (analyze : String → Except PyExn StockResult) (total : Nat) :
    ∀ (i : Nat) (syms : List String),
      (batchLoop (stockStep analyze true total) i syms).1
        = expectedTrace progressMsgStock total i syms
  | _, [] => rfl
  | i, code :: rest => by
    simp only [batchLoop, expectedTrace, stockStep]
    rw [batchLoop_stock_events analyze total (i + 1) rest]
    simp


theorem progressFractions_expected (label : String → Nat → Nat → String)
    (total : Nat) :
    ∀ (i : Nat) (syms : List String),
      progressFractions (expectedTrace label total i syms)
        = (List.range' i syms.length).map
            (fun k : Nat => (k : ℚ) / (total : ℚ))
  | _, [] => rfl
  | i, code :: rest => by
    simp only [expectedTrace, progressFractions, List.filterMap_cons,
      List.length_cons, List.range'_succ, List.map_cons]
    rw [← progressFractions_expected label total (i + 1) rest]
    rfl

theorem fractions_pairwise_lt (total : Nat) (ht : 0 < total)
    (i n : Nat) :
    ((List.range' i n).map
        (fun k : Nat => (k : ℚ) / (total : ℚ))).Pairwise (· < ·) := by
  refine List.pairwise_map.mpr ?_
  refine (List.pairwise_lt_range' i n).imp ?_
  intro a b hab
  exact (div_lt_div_iff_of_pos_right (by exact_mod_cast ht)).mpr
    (by exact_mod_cast hab)

theorem fractions_getLast (total : Nat) (ht : 0 < total) :
    ((List.range' 1 total).map
        (fun k : Nat => (k : ℚ) / (total : ℚ))).getLast? = some 1 := by
  obtain ⟨n, rfl⟩ : ∃ n, total = n + 1 := ⟨total - 1, by omega⟩
  rw [List.range'_concat, List.map_append, List.map_singleton,
    List.getLast?_concat]
  have h1 : (1 + 1 * n : Nat) = n + 1 := by omega
  rw [h1]
  congr 1
  rw [div_self]
  exact_mod_cast Nat.succ_ne_zero n

theorem paramDescOf_eq_find (doc : List DocParam) (n : String) :
    paramDescOf doc n
      = (match doc.find? (fun q => q.arg_name == n) with
         | some q => pyOrElse q.description "无描述"
         | none => "") := by
  induction doc with
  | nil => rfl
  | cons q rest ih =>
    by_cases h : q.arg_name = n
    · simp [paramDescOf, List.find?_cons, h]
    · simp only [paramDescOf, if_neg h, ih, List.find?_cons]
      rw [beq_eq_false_iff_ne.mpr h]

end SupportLemmas

/-- Claim C1 (amended): for every parameters mapping, step_content and
source (stock or fund), the extractor returns a list of strings in which
every element consists of exactly six decimal digits in the sense of
Python's `\d` — Unicode decimal digits, not necessarily ASCII, which is
the amendment — not adjacent to another word character, the elements are
pairwise distinct, and the list is sorted strictly ascending in the
lexicographic (code-point) order. -/
theorem claim_C1_amended (p : Params) (sc : String) :
    SixDigitDistinctAscending (_extract_stock_symbols p sc) ∧
    SixDigitDistinctAscending (_extract_fund_symbols p sc) :=
  ⟨pipeline_sixDigit _, pipeline_sixDigit _⟩

/-- Claim C1, counterexample to the claim as stated: on a step_content
of six fullwidth digits (U+FF16, U+FF10...), Python's `\d` matches, so
the extractor returns an element that does not consist of ASCII
digits. -/
theorem claim_C1_counterexample :
    _extract_stock_symbols Params.notDict "６００００１" = ["６００００１"] ∧
    ¬ (∀ s ∈ _extract_stock_symbols Params.notDict "６００００１",
        ∀ c ∈ s.data, c.isDigit = true) := by
  constructor
  · decide
  · decide

/-- Claim C2 (amended): whenever `parameters` is a mapping containing
the relevant key with a value that yields at least one candidate string
— that is, any value other than the empty list, which is the amendment —
the extractor's result is computed from that key's value alone: all
6-digit codes in step_content are ignored (the right-hand sides below do
not mention `sc`), the empty list is returned when the value contains no
valid code, and the two sources are never merged. -/
theorem claim_C2_amended (p q : Params) (v w : ParamVal) (sc sc2 : String)
    (hv : paramsGet p "stock_symbols" = some v)
    (hvne : paramCandidates v ≠ [])
    (hw : paramsGet q "fund_symbols" = some w)
    (hwne : paramCandidates w ≠ []) :
    _extract_stock_symbols p sc
      = pySorted ((re_findall_code (pyJoin "," (paramCandidates v))).dedup) ∧
    _extract_fund_symbols q sc2
      = pySorted ((re_findall_code (pyJoin "," (paramCandidates w))).dedup) := by
  constructor
  · simp only [_extract_stock_symbols, hv]
    rw [if_neg (fun hx => hvne hx.1)]
  · simp only [_extract_fund_symbols, hw]
    rw [if_neg (fun hx => hwne hx.1)]

/-- Claim C2 witness: concrete parameter-supplied codes are extracted
from the parameter value alone, with different codes in step_content
ignored. -/
theorem claim_C2_witness :
    paramsGet (Params.dict [("stock_symbols", ParamVal.single "600000")])
        "stock_symbols" = some (ParamVal.single "600000") ∧
    paramCandidates (ParamVal.single "600000") ≠ [] ∧
    paramsGet (Params.dict [("fund_symbols", ParamVal.single "162411")])
        "fund_symbols" = some (ParamVal.single "162411") ∧
    paramCandidates (ParamVal.single "162411") ≠ [] ∧
    (_extract_stock_symbols
        (Params.dict [("stock_symbols", ParamVal.single "600000")]) "999999"
      = pySorted ((re_findall_code
          (pyJoin "," (paramCandidates (ParamVal.single "600000")))).dedup) ∧
     _extract_fund_symbols
        (Params.dict [("fund_symbols", ParamVal.single "162411")]) "999999"
      = pySorted ((re_findall_code
          (pyJoin "," (paramCandidates (ParamVal.single "162411")))).dedup)) :=
  ⟨by decide, by decide, by decide, by decide,
    claim_C2_amended _ _ _ _ _ _ (by decide) (by decide) (by decide)
      (by decide)⟩

/-- Claim C2, counterexample to the claim as stated: with
`parameters = {"stock_symbols": []}` the key is present but contributes
no candidate, and the code falls back to step_content — returning
`["600000"]` extracted from it instead of the empty list the claim
demands, and depending on step_content while the key is present. -/
theorem claim_C2_counterexample :
    _extract_stock_symbols
        (Params.dict [("stock_symbols", ParamVal.list [])]) "600000"
      = ["600000"] ∧
    _extract_stock_symbols
        (Params.dict [("stock_symbols", ParamVal.list [])]) ""
      = [] := by
  constructor
  · decide
  · decide

/-- Claim C5: when identifier extraction yields the empty list, the
tool handler returns the fixed no-valid-identifiers error string
immediately, with an empty event trace — the per-identifier analysis
function is never invoked and the progress callback is never called. -/
theorem claim_C5_empty_extraction
    (analyzeS : String → Except PyExn StockResult)
    (analyzeF : String → Except PyExn String)
    (p q : Params) (sc sc2 : String) (cb cb2 : Bool)
    (hS : _extract_stock_symbols p sc = [])
    (hF : _extract_fund_symbols q sc2 = []) :
    execute_stock_analysis_tool analyzeS p sc cb = (stockNoCodesMsg, []) ∧
    execute_fund_analysis_tool analyzeF q sc2 cb2 = (fundNoCodesMsg, []) := by
  constructor
  · simp [execute_stock_analysis_tool, hS]
  · simp [execute_fund_analysis_tool, hF]

/-- Claim C5 witness: with no parameters and an empty step_content,
extraction is empty and both tools return their fixed error with no
analysis calls and no progress calls. -/
theorem claim_C5_witness :
    _extract_stock_symbols Params.notDict "" = [] ∧
    _extract_fund_symbols Params.notDict "" = [] ∧
    (execute_stock_analysis_tool (fun _ => Except.error (PyExn.mk "x"))
        Params.notDict "" true = (stockNoCodesMsg, []) ∧
     execute_fund_analysis_tool (fun _ => Except.error (PyExn.mk "x"))
        Params.notDict "" true = (fundNoCodesMsg, [])) :=
  ⟨by decide, by decide,
    claim_C5_empty_extraction _ _ _ _ _ _ _ _ (by decide) (by decide)⟩

/-- Claim C6: for every non-empty extracted identifier list, the
aggregate stock report is the blank-line-separated join of one fragment
per identifier, in exactly the extracted identifier order regardless of
which items fail; an identifier whose analysis raises contributes the
failure fragment `"### 个股分析: <id>\n分析失败：<message>"`, and
processing continues (every identifier keeps its own fragment). -/
theorem claim_C6_per_item_isolation
    (analyze : String → Except PyExn StockResult) (p : Params)
    (sc : String) (cb : Bool)
    (h : _extract_stock_symbols p sc ≠ []) :
    (execute_stock_analysis_tool analyze p sc cb).1
      = pyJoin "\n\n"
          ((_extract_stock_symbols p sc).map (stockFragment analyze)) ∧
    ∀ code e, analyze code = .error e →
      stockFragment analyze code
        = "### 个股分析: " ++ code ++ "\n分析失败：" ++ e.msg := by
  constructor
  · simp only [execute_stock_analysis_tool]
    rw [if_neg h]
    show pyJoin "\n\n" (batchLoop _ 1 _).2 = _
    congr 1
    exact batchLoop_fragments
      (stockStep analyze cb (_extract_stock_symbols p sc).length)
      (stockFragment analyze) (fun _ _ => rfl) 1
      (_extract_stock_symbols p sc)
  · intro code e he
    simp [stockFragment, he]

/-- Claim C6 witness: with codes 600000 and 600036 where the analysis
of 600000 raises and that of 600036 succeeds, the report is the failure
fragment for 600000 followed by the success fragment for 600036, in
that (sorted input) order. -/
theorem claim_C6_witness :
    _extract_stock_symbols
        (Params.dict [("stock_symbols", ParamVal.list ["600036", "600000"])])
        "" ≠ [] ∧
    ((execute_stock_analysis_tool
        (fun c => if c = "600000" then Except.error (PyExn.mk "接口超时")
          else Except.ok (StockResult.mk none none))
        (Params.dict [("stock_symbols", ParamVal.list ["600036", "600000"])])
        "" false).1
      = pyJoin "\n\n"
          ((_extract_stock_symbols
              (Params.dict
                [("stock_symbols", ParamVal.list ["600036", "600000"])])
              "").map
            (stockFragment
              (fun c => if c = "600000" then Except.error (PyExn.mk "接口超时")
                else Except.ok (StockResult.mk none none)))) ∧
     ∀ code e,
       (fun c => if c = "600000" then Except.error (PyExn.mk "接口超时")
         else Except.ok (StockResult.mk none none)) code = .error e →
       stockFragment
           (fun c => if c = "600000" then Except.error (PyExn.mk "接口超时")
             else Except.ok (StockResult.mk none none)) code
         = "### 个股分析: " ++ code ++ "\n分析失败：" ++ e.msg) :=
  ⟨by decide, claim_C6_per_item_isolation _ _ _ _ (by decide)⟩

/-- Claim C7: when a progress callback is supplied and the extracted
identifier list is non-empty with length `total`, the event trace is
exactly one progress notification per identifier, emitted before that
identifier's analysis call, with message
`"正在分析股票 <code>（<i>/<total>）"` and fraction `i/total`; the
sequence of fraction values is `1/total, ..., total/total`, strictly
increasing, and its final value is 1. -/
theorem claim_C7_progress (analyze : String → Except PyExn StockResult)
    (p : Params) (sc : String)
    (h : _extract_stock_symbols p sc ≠ []) :
    (execute_stock_analysis_tool analyze p sc true).2
      = expectedTrace progressMsgStock (_extract_stock_symbols p sc).length
          1 (_extract_stock_symbols p sc) ∧
    progressFractions (execute_stock_analysis_tool analyze p sc true).2
      = (List.range' 1 (_extract_stock_symbols p sc).length).map
          (fun k : Nat =>
            (k : ℚ) / ((_extract_stock_symbols p sc).length : ℚ)) ∧
    (progressFractions
        (execute_stock_analysis_tool analyze p sc true).2).Pairwise
      (· < ·) ∧
    (progressFractions
        (execute_stock_analysis_tool analyze p sc true).2).getLast?
      = some 1 := by
  have htot : 0 < (_extract_stock_symbols p sc).length :=
    List.length_pos.mpr h
  have hevs : (execute_stock_analysis_tool analyze p sc true).2
      = expectedTrace progressMsgStock (_extract_stock_symbols p sc).length
          1 (_extract_stock_symbols p sc) := by
    simp only [execute_stock_analysis_tool]
    rw [if_neg h]
    exact batchLoop_stock_events analyze _ 1 _
  have hfr := progressFractions_expected progressMsgStock
    (_extract_stock_symbols p sc).length 1 (_extract_stock_symbols p sc)
  refine ⟨hevs, ?_, ?_, ?_⟩
  · rw [hevs]
    exact hfr
  · rw [hevs, hfr]
    exact fractions_pairwise_lt _ htot 1 _
  · rw [hevs, hfr]
    exact fractions_getLast _ htot

/-- Claim C7 witness: two concrete codes, callback supplied; the trace,
fraction list, strict increase and final value 1 are obtained from the
theorem. -/
theorem claim_C7_witness :
    _extract_stock_symbols
        (Params.dict [("stock_symbols", ParamVal.list ["600036", "600000"])])
        "" ≠ [] ∧
    ((execute_stock_analysis_tool (fun _ => Except.error (PyExn.mk "x"))
        (Params.dict [("stock_symbols", ParamVal.list ["600036", "600000"])])
        "" true).2
      = expectedTrace progressMsgStock
          (_extract_stock_symbols
            (Params.dict
              [("stock_symbols", ParamVal.list ["600036", "600000"])])
            "").length
          1
          (_extract_stock_symbols
            (Params.dict
              [("stock_symbols", ParamVal.list ["600036", "600000"])])
            "") ∧
     progressFractions
        (execute_stock_analysis_tool (fun _ => Except.error (PyExn.mk "x"))
          (Params.dict
            [("stock_symbols", ParamVal.list ["600036", "600000"])])
          "" true).2
      = (List.range' 1
          (_extract_stock_symbols
            (Params.dict
              [("stock_symbols", ParamVal.list ["600036", "600000"])])
            "").length).map
          (fun k : Nat =>
            (k : ℚ) /
              ((_extract_stock_symbols
                  (Params.dict
                    [("stock_symbols", ParamVal.list ["600036", "600000"])])
                  "").length : ℚ)) ∧
     (progressFractions
        (execute_stock_analysis_tool (fun _ => Except.error (PyExn.mk "x"))
          (Params.dict
            [("stock_symbols", ParamVal.list ["600036", "600000"])])
          "" true).2).Pairwise (· < ·) ∧
     (progressFractions
        (execute_stock_analysis_tool (fun _ => Except.error (PyExn.mk "x"))
          (Params.dict
            [("stock_symbols", ParamVal.list ["600036", "600000"])])
          "" true).2).getLast? = some 1) :=
  ⟨by decide, claim_C7_progress _ _ _ (by decide)⟩

/-- Claim C9 (amended): on a successful per-identifier stock analysis,
the fragment body is the blank-line-separated join of the present report
sections (in the fixed order market, fundamentals, sentiment, news)
followed by one further slot holding the headed decision reasoning when
present and the empty string otherwise — so when at least one section is
present and the reasoning is absent, the body carries a trailing
blank-line separator contributed by the empty reasoning slot (the
amendment) — and the "no result" placeholder is used if and only if
every section and the reasoning are absent. -/
theorem claim_C9_success_fragment
    (analyze : String → Except PyExn StockResult) (code : String)
    (r : StockResult) (h : analyze code = .ok r) :
    stockFragment analyze code
      = "### 个股分析: " ++ code ++ "\n" ++
          (if stockRawReports r = [] ∧ r.decision_reasoning = none
           then "无分析结果" else stockFullRawReport r) ∧
    (stockFullRawReport r = ""
      ↔ stockRawReports r = [] ∧ r.decision_reasoning = none) ∧
    (stockRawReports r ≠ [] → r.decision_reasoning = none →
      stockFullRawReport r = pyJoin "\n\n" (stockRawReports r) ++ "\n\n") ∧
    (∀ v, r.decision_reasoning = some v →
      stockFullRawReport r
        = pyJoin "\n\n"
            (stockRawReports r ++ ["#### 核心决策结论\n" ++ v])) := by
  have hiff : stockFullRawReport r = ""
      ↔ stockRawReports r = [] ∧ r.decision_reasoning = none := by
    constructor
    · intro hempty
      by_cases hrep : stockRawReports r = []
      · refine ⟨hrep, ?_⟩
        cases hdr : r.decision_reasoning with
        | none => rfl
        | some v =>
          exfalso
          apply append_left_ne_empty "#### 核心决策结论\n" v (by decide)
          have hform : stockFullRawReport r = "#### 核心决策结论\n" ++ v := by
            unfold stockFullRawReport stockDecisionReasoning
            rw [hrep, hdr]
            rfl
          rw [← hform]
          exact hempty
      · exact absurd hempty
          (pyJoin_ne_empty "\n\n" (stockDecisionReasoning r) (by decide)
            (stockRawReports r) hrep)
    · intro hx
      unfold stockFullRawReport stockDecisionReasoning
      rw [hx.1, hx.2]
      rfl
  refine ⟨?_, hiff, ?_, ?_⟩
  · simp only [stockFragment, h]
    congr 1
    exact if_congr hiff rfl rfl
  · intro hne hnone
    unfold stockFullRawReport
    rw [pyJoin_concat "\n\n" _ _ hne,
      show stockDecisionReasoning r = "" from by
        unfold stockDecisionReasoning; rw [hnone],
      String.append_empty]
  · intro v hv
    unfold stockFullRawReport stockDecisionReasoning
    rw [hv]

/-- Claim C9 witness: a result with a single present section (market)
and no decision reasoning, where the theorem yields the fragment shape,
the placeholder characterisation, and the trailing separator. -/
theorem claim_C9_witness :
    (fun _ : String =>
        (Except.ok
            (StockResult.mk
              (some (StockState.mk (some "X") none none none)) none)
          : Except PyExn StockResult))
        "600000"
      = Except.ok
          (StockResult.mk
            (some (StockState.mk (some "X") none none none)) none) ∧
    (stockFragment
        (fun _ : String =>
          (Except.ok
              (StockResult.mk
                (some (StockState.mk (some "X") none none none)) none)
            : Except PyExn StockResult))
        "600000"
      = "### 个股分析: " ++ "600000" ++ "\n" ++
          (if stockRawReports
                (StockResult.mk
                  (some (StockState.mk (some "X") none none none)) none)
              = [] ∧
             (StockResult.mk
                (some (StockState.mk (some "X") none none none))
                none).decision_reasoning = none
           then "无分析结果"
           else stockFullRawReport
             (StockResult.mk
               (some (StockState.mk (some "X") none none none)) none)) ∧
     (stockFullRawReport
          (StockResult.mk
            (some (StockState.mk (some "X") none none none)) none) = ""
       ↔ stockRawReports
            (StockResult.mk
              (some (StockState.mk (some "X") none none none)) none)
            = [] ∧
         (StockResult.mk
            (some (StockState.mk (some "X") none none none))
            none).decision_reasoning = none) ∧
     (stockRawReports
          (StockResult.mk
            (some (StockState.mk (some "X") none none none)) none)
          ≠ [] →
       (StockResult.mk
          (some (StockState.mk (some "X") none none none))
          none).decision_reasoning = none →
       stockFullRawReport
           (StockResult.mk
             (some (StockState.mk (some "X") none none none)) none)
         = pyJoin "\n\n"
             (stockRawReports
               (StockResult.mk
                 (some (StockState.mk (some "X") none none none)) none))
             ++ "\n\n") ∧
     (∀ v,
       (StockResult.mk
          (some (StockState.mk (some "X") none none none))
          none).decision_reasoning = some v →
       stockFullRawReport
           (StockResult.mk
             (some (StockState.mk (some "X") none none none)) none)
         = pyJoin "\n\n"
             (stockRawReports
                 (StockResult.mk
                   (some (StockState.mk (some "X") none none none)) none)
               ++ ["#### 核心决策结论\n" ++ v]))) :=
  ⟨rfl, claim_C9_success_fragment _ _ _ rfl⟩

/-- Claim C9, counterexample to the claim as stated: with exactly one
present section and no decision reasoning, the fragment body is
`"#### Market Report\nX\n\n"` — carrying a trailing blank-line
separator contributed by the absent reasoning — and not the plain
concatenation `"#### Market Report\nX"` of the present sections that
the claim describes. -/
theorem claim_C9_counterexample :
    (execute_stock_analysis_tool
        (fun _ =>
          Except.ok
            (StockResult.mk
              (some (StockState.mk (some "X") none none none)) none))
        (Params.dict [("stock_symbols", ParamVal.single "600000")]) ""
        false).1
      = "### 个股分析: 600000\n#### Market Report\nX\n\n" ∧
    "### 个股分析: 600000\n#### Market Report\nX\n\n"
      ≠ "### 个股分析: 600000\n#### Market Report\nX" := by
  constructor
  · decide
  · decide

/-- Claim C3: for every tool_name not present in the registry, `execute`
returns — totally, hence without raising — the unknown-tool error
string, which contains every registered display name; no registered
handler is invoked, witnessed by the result being the fixed message and
independent of the handlers and of the remaining arguments. -/
theorem claim_C3_unknown_tool (stockH fundH stockH2 fundH2 : Handler)
    (tool_name : String) (p p2 : Params) (sc sc2 : String) (cb cb2 : Bool)
    (h : tool_name ∉ get_available_tools stockH fundH) :
    execute stockH fundH tool_name p sc cb
      = "错误：未知工具 '" ++ tool_name ++ "'，无法执行。可用工具：" ++
          pyJoin ", " (get_available_tools stockH fundH) ∧
    strContains (execute stockH fundH tool_name p sc cb)
      "个股股票分析工具" ∧
    strContains (execute stockH fundH tool_name p sc cb)
      "基金分析工具" ∧
    execute stockH fundH tool_name p sc cb
      = execute stockH2 fundH2 tool_name p2 sc2 cb2 := by
  have h1 : tool_name ≠ "个股股票分析工具" := by
    intro he
    exact h (by rw [he]; exact List.mem_cons_self _ _)
  have h2 : tool_name ≠ "基金分析工具" := by
    intro he
    exact h (by rw [he]; simp [get_available_tools, toolRegistry])
  have hgat : ∀ a b : Handler,
      get_available_tools a b = ["个股股票分析工具", "基金分析工具"] :=
    fun _ _ => rfl
  have hmsg : ∀ (a b : Handler) (pp : Params) (scc : String) (cbb : Bool),
      execute a b tool_name pp scc cbb
        = "错误：未知工具 '" ++ tool_name ++ "'，无法执行。可用工具：" ++
            pyJoin ", " (get_available_tools a b) := by
    intro a b pp scc cbb
    have hlook : (toolRegistry a b).lookup tool_name = none := by
      simp [toolRegistry, List.lookup_cons, beq_eq_false_iff_ne.mpr h1,
        beq_eq_false_iff_ne.mpr h2]
    simp only [execute, hlook]
  have hpy1 : pyJoin ", " ["个股股票分析工具", "基金分析工具"]
      = "个股股票分析工具" ++ (", " ++ "基金分析工具") := by decide
  have hpy2 : pyJoin ", " ["个股股票分析工具", "基金分析工具"]
      = "个股股票分析工具, " ++ "基金分析工具" := by decide
  refine ⟨hmsg stockH fundH p sc cb, ?_, ?_, ?_⟩
  · refine ⟨"错误：未知工具 '" ++ tool_name ++ "'，无法执行。可用工具：",
      ", " ++ "基金分析工具", ?_⟩
    rw [hmsg stockH fundH p sc cb, hgat, hpy1]
    simp only [String.append_assoc]
  · refine ⟨("错误：未知工具 '" ++ tool_name ++ "'，无法执行。可用工具：")
        ++ "个股股票分析工具, ", "", ?_⟩
    rw [hmsg stockH fundH p sc cb, hgat, hpy2, String.append_empty]
    simp only [String.append_assoc]
  · rw [hmsg stockH fundH p sc cb, hmsg stockH2 fundH2 p2 sc2 cb2,
      hgat, hgat]

/-- Claim C3 witness: the commented-out third tool name of the source is
not registered; dispatching it yields the error message listing both
registered names, independently of handlers and arguments. -/
theorem claim_C3_witness :
    "机构经营情况分析工具" ∉
      get_available_tools (fun _ _ _ => Except.ok "")
        (fun _ _ _ => Except.ok "") ∧
    (execute (fun _ _ _ => Except.ok "") (fun _ _ _ => Except.ok "")
        "机构经营情况分析工具" Params.notDict "" false
      = "错误：未知工具 '" ++ "机构经营情况分析工具" ++
          "'，无法执行。可用工具：" ++
          pyJoin ", "
            (get_available_tools (fun _ _ _ => Except.ok "")
              (fun _ _ _ => Except.ok "")) ∧
     strContains
       (execute (fun _ _ _ => Except.ok "") (fun _ _ _ => Except.ok "")
         "机构经营情况分析工具" Params.notDict "" false)
       "个股股票分析工具" ∧
     strContains
       (execute (fun _ _ _ => Except.ok "") (fun _ _ _ => Except.ok "")
         "机构经营情况分析工具" Params.notDict "" false)
       "基金分析工具" ∧
     execute (fun _ _ _ => Except.ok "") (fun _ _ _ => Except.ok "")
         "机构经营情况分析工具" Params.notDict "" false
       = execute (fun _ _ _ => Except.error (PyExn.mk "y"))
           (fun _ _ _ => Except.error (PyExn.mk "z"))
           "机构经营情况分析工具" (Params.dict []) "s" true) :=
  ⟨by decide,
    claim_C3_unknown_tool _ _ _ _ _ _ _ _ _ _ _ (by decide)⟩

/-- Claim C4: an exception raised by a registered handler is caught at
the dispatcher boundary: `execute` returns (totally, hence without
propagating the exception) the error string
`"执行工具 '<name>' 时发生错误: <message>"`, which contains the
exception's message. -/
theorem claim_C4_handler_exception (stockH fundH : Handler)
    (tool_name : String) (p : Params) (sc : String) (cb : Bool)
    (h : Handler) (e : PyExn)
    (hl : (toolRegistry stockH fundH).lookup tool_name = some h)
    (he : h p sc cb = .error e) :
    execute stockH fundH tool_name p sc cb
      = "执行工具 '" ++ tool_name ++ "' 时发生错误: " ++ e.msg ∧
    strContains (execute stockH fundH tool_name p sc cb) e.msg := by
  have hmsg : execute stockH fundH tool_name p sc cb
      = "执行工具 '" ++ tool_name ++ "' 时发生错误: " ++ e.msg := by
    simp only [execute, hl, he]
  refine ⟨hmsg, "执行工具 '" ++ tool_name ++ "' 时发生错误: ", "", ?_⟩
  rw [hmsg, String.append_empty]

/-- Claim C4 witness: a stock handler that raises "连接失败"; `execute`
returns the boundary error string containing that message. -/
theorem claim_C4_witness :
    (toolRegistry (fun _ _ _ => Except.error (PyExn.mk "连接失败"))
        (fun _ _ _ => Except.ok "")).lookup "个股股票分析工具"
      = some (fun _ _ _ => Except.error (PyExn.mk "连接失败")) ∧
    ((fun _ _ _ => Except.error (PyExn.mk "连接失败")) : Handler)
        Params.notDict "" false
      = Except.error (PyExn.mk "连接失败") ∧
    (execute (fun _ _ _ => Except.error (PyExn.mk "连接失败"))
        (fun _ _ _ => Except.ok "") "个股股票分析工具" Params.notDict ""
        false
      = "执行工具 '" ++ "个股股票分析工具" ++ "' 时发生错误: " ++
          (PyExn.mk "连接失败").msg ∧
     strContains
       (execute (fun _ _ _ => Except.error (PyExn.mk "连接失败"))
         (fun _ _ _ => Except.ok "") "个股股票分析工具" Params.notDict ""
         false)
       (PyExn.mk "连接失败").msg) :=
  ⟨rfl, rfl, claim_C4_handler_exception _ _ _ _ _ _ _ _ rfl rfl⟩

/-- Claim C8 (amended): `get_tool_metadata` reports, for each declared
parameter in declaration order: `type` equal to the annotation's name or
the fixed "未指定" placeholder when unannotated; `default` equal to the
declared default or the fixed "必填" placeholder when none is declared;
and `description` equal to the first docstring entry matched by
parameter name (with "无描述" substituted when the matched entry's
description is missing or empty) — or the empty string, not the
placeholder, when no docstring entry matches (the amendment). -/
theorem claim_C8_metadata {α : Type} (f : PyFunc α) :
    (get_tool_metadata f).parameters = f.params.map (fun p =>
      { name := p.name
      , type := match p.annotationName with
                | some t => t
                | none => "未指定"
      , default := match p.default with
                   | some v => Sum.inl v
                   | none => Sum.inr "必填"
      , description :=
          match f.doc_params.find? (fun q => q.arg_name == p.name) with
          | some q => pyOrElse q.description "无描述"
          | none => "" }) := by
  unfold get_tool_metadata
  refine List.map_congr_left ?_
  intro p _
  rw [paramDescOf_eq_find]

/-- Claim C8, counterexample to the claim as stated: a handler with one
unannotated, defaultless parameter `x` and a docstring with no entry for
`x` is reported with `type = "未指定"` and `default = "必填"` as the
claim says, but with `description = ""` — not the "无描述" placeholder
the claim demands for an unmatched parameter. -/
theorem claim_C8_counterexample :
    ((get_tool_metadata
        ({ name := "handler"
         , short_description := none
         , doc_params := []
         , params := [{ name := "x", annotationName := none
                      , default := none }] } : PyFunc Unit)).parameters.map
      (fun q => q.type)) = ["未指定"] ∧
    ((get_tool_metadata
        ({ name := "handler"
         , short_description := none
         , doc_params := []
         , params := [{ name := "x", annotationName := none
                      , default := none }] } : PyFunc Unit)).parameters.map
      (fun q => q.default)) = [Sum.inr "必填"] ∧
    ((get_tool_metadata
        ({ name := "handler"
         , short_description := none
         , doc_params := []
         , params := [{ name := "x", annotationName := none
                      , default := none }] } : PyFunc Unit)).parameters.map
      (fun q => q.description)) = [""] ∧
    ("" : String) ≠ "无描述" := by
  refine ⟨by decide, by decide, by decide, by decide⟩

/-- Claim C10: the stock and fund extractors compute the same function
up to the lookup key: whenever `p` maps `"stock_symbols"` to the same
value (or likewise absence) as `q` maps `"fund_symbols"`, the two
extractors agree on every step_content; in particular they return
identical results when neither key is present or the parameters are not
a mapping. -/
theorem claim_C10_extractors_agree (p q : Params) (sc : String)
    (h : paramsGet p "stock_symbols" = paramsGet q "fund_symbols") :
    _extract_stock_symbols p sc = _extract_fund_symbols q sc := by
  unfold _extract_stock_symbols _extract_fund_symbols
  rw [h]

/-- Claim C10 witness: a parameters value without either key and a
non-mapping parameters value look up equal (both absent), so the two
extractors agree on a concrete step_content. -/
theorem claim_C10_witness :
    paramsGet Params.notDict "stock_symbols"
      = paramsGet (Params.dict [("other", ParamVal.single "x")])
          "fund_symbols" ∧
    _extract_stock_symbols Params.notDict "600000,600036"
      = _extract_fund_symbols
          (Params.dict [("other", ParamVal.single "x")]) "600000,600036" :=
  ⟨by decide, claim_C10_extractors_agree _ _ _ (by decide)⟩

end ToolExecutor
